import Mathlib

/-!
Shallow embedding of the room-planner drag/collision/undo core
(DraggableFurniture in the three.js scene, the zustand room store, and the
detail-edit arrangement presets).

Conventions of the embedding:
* JS numbers are modelled as exact rationals (`ℚ`).
* The trigonometric projection the source performs per use —
  `Math.abs(Math.cos(rotation * π / 180))` and the matching sine — is
  parametrised: each item carries the two values `absCos` and `absSin`
  produced by the host math library, and every embedded function uses them
  exactly where the source calls the library.
* JS arrays are lists, objects are structures, fields that can be
  `undefined` are `Option`.
-/

structure Dims where
  width : ℚ
  height : ℚ
  depth : ℚ
  deriving DecidableEq

structure Vec3 where
  x : ℚ
  y : ℚ
  z : ℚ
  deriving DecidableEq

inductive BookOrientation where
  | upright
  | flat
  | faceout
  deriving DecidableEq

/-- One placed furniture item of the room store.  The source stores the yaw
as degrees and recomputes `Math.abs(Math.cos ·)` / `Math.abs(Math.sin ·)` of
it at every use; here the item carries those two library outputs directly as
`absCos` and `absSin`. -/
structure FurnitureItem where
  id : String
  type : String
  position : Vec3
  absCos : ℚ
  absSin : ℚ
  dimensions : Dims
  color : String
  orientation : Option BookOrientation
  spineColor : Option String
  sizeVariant : Option ℚ
  deriving DecidableEq

/-- The small-item type list of DraggableFurniture.isSmallItem. -/
def smallTypes : List String :=
  ["book", "book_stack", "manga", "gojo_manga", "kaws_figure", "murakami_flower",
   "picture_frame", "vase", "lamp_small", "clock", "trophy", "plant"]

def isSmallItem (type : String) : Bool :=
  decide (type ∈ smallTypes)

/-- DraggableFurniture.snapToGrid: small items snap to a 0.005 cell, other
items to a quarter of the configured grid size. -/
def snapToGrid (gridSize : ℚ) (type : String) (value : ℚ) : ℚ :=
  let fineGrid : ℚ := if isSmallItem type then 1 / 200 else gridSize / 4
  (round (value / fineGrid) : ℚ) * fineGrid

theorem snap_round_fixed (g v : ℚ) (hg : g ≠ 0) :
    (round (((round (v / g) : ℚ) * g) / g) : ℚ) * g = (round (v / g) : ℚ) * g := by
  rw [mul_div_cancel_right₀ _ hg, round_intCast]

/-- C8: grid snapping is idempotent — snapping an already snapped coordinate
returns it unchanged, for the small-class 0.005 cell as well as the
large-class gridSize/4 cell. -/
theorem snapToGrid_idempotent (gridSize : ℚ) (type : String) (value : ℚ)
    (hg : 0 < gridSize) :
    snapToGrid gridSize type (snapToGrid gridSize type value) =
      snapToGrid gridSize type value := by
  unfold snapToGrid
  by_cases h : isSmallItem type = true
  · simp only [h, if_true]
    exact snap_round_fixed (1 / 200) value (by norm_num)
  · simp only [h, if_false]
    refine snap_round_fixed (gridSize / 4) value ?_
    have h4 : (0 : ℚ) < gridSize / 4 := by positivity
    exact ne_of_gt h4

theorem snapToGrid_idempotent_witness :
    (0 : ℚ) < 1 / 10 ∧
      snapToGrid (1 / 10) "book" (snapToGrid (1 / 10) "book" (3 / 7)) =
        snapToGrid (1 / 10) "book" (3 / 7) :=
  ⟨by norm_num, snapToGrid_idempotent (1 / 10) "book" (3 / 7) (by norm_num)⟩

structure Box3 where
  minX : ℚ
  maxX : ℚ
  minY : ℚ
  maxY : ℚ
  minZ : ℚ
  maxZ : ℚ
  deriving DecidableEq

/-- The standard 3D AABB overlap test of the source (all three axes must
overlap, strict inequalities). -/
def boxesOverlap (a b : Box3) : Bool :=
  decide (a.minX < b.maxX) && decide (a.maxX > b.minX) &&
    decide (a.minY < b.maxY) && decide (a.maxY > b.minY) &&
    decide (a.minZ < b.maxZ) && decide (a.maxZ > b.minZ)

/-- DraggableFurniture.checkCollision: the candidate box of the dragged item
at (x, y, z) is tested against every other live item; the loop skips the item
itself, skips the detail-mode host, and skips any pair in which both items
are small, and reports a collision when some remaining pair of effective
boxes overlaps on all three axes. -/
def checkCollision (furniture : List FurnitureItem) (item : FurnitureItem)
    (isInDetailMode : Bool) (detailModeTarget : Option String)
    (x y z : ℚ) : Bool :=
  let cos := item.absCos
  let sin := item.absSin
  let isMyItemSmall := isSmallItem item.type
  let shrink : ℚ := if isMyItemSmall then 1 / 2 else 19 / 20
  let effectiveWidth := (item.dimensions.width * cos + item.dimensions.depth * sin) * shrink
  let effectiveDepth := (item.dimensions.width * sin + item.dimensions.depth * cos) * shrink
  let myBox : Box3 :=
    { minX := x - effectiveWidth / 2
      maxX := x + effectiveWidth / 2
      minY := y
      maxY := y + item.dimensions.height * shrink
      minZ := z - effectiveDepth / 2
      maxZ := z + effectiveDepth / 2 }
  furniture.any fun other =>
    if decide (other.id = item.id) then false
    else if isInDetailMode && decide (detailModeTarget = some other.id) then false
    else if isMyItemSmall && isSmallItem other.type then false
    else
      let otherShrink : ℚ := if isSmallItem other.type then 1 / 2 else 19 / 20
      let otherCos := other.absCos
      let otherSin := other.absSin
      let otherEffectiveWidth :=
        (other.dimensions.width * otherCos + other.dimensions.depth * otherSin) * otherShrink
      let otherEffectiveDepth :=
        (other.dimensions.width * otherSin + other.dimensions.depth * otherCos) * otherShrink
      let otherBox : Box3 :=
        { minX := other.position.x - otherEffectiveWidth / 2
          maxX := other.position.x + otherEffectiveWidth / 2
          minY := other.position.y
          maxY := other.position.y + other.dimensions.height * otherShrink
          minZ := other.position.z - otherEffectiveDepth / 2
          maxZ := other.position.z + otherEffectiveDepth / 2 }
      boxesOverlap myBox otherBox

/-- Shrink factor as the BoundsResolver section of the spec words it: 0.5 for
small-class items, 0.95 for large-class items. -/
def shrinkFactor (type : String) : ℚ :=
  if isSmallItem type then 1 / 2 else 19 / 20

/-- Effective axis-aligned box as the BoundsResolver section of the spec words it:
effWidth = width·|cos| + depth·|sin| and effDepth = width·|sin| + depth·|cos|,
each multiplied by the shrink factor, with vertical extent height·shrink
starting at y. -/
def resolverBox (item : FurnitureItem) (x y z : ℚ) : Box3 :=
  let shrink := shrinkFactor item.type
  let effWidth := (item.dimensions.width * item.absCos + item.dimensions.depth * item.absSin) * shrink
  let effDepth := (item.dimensions.width * item.absSin + item.dimensions.depth * item.absCos) * shrink
  { minX := x - effWidth / 2
    maxX := x + effWidth / 2
    minY := y
    maxY := y + item.dimensions.height * shrink
    minZ := z - effDepth / 2
    maxZ := z + effDepth / 2 }

theorem checkCollision_iff_exists (furniture : List FurnitureItem) (item : FurnitureItem)
    (mode : Bool) (tgt : Option String) (x y z : ℚ) :
    checkCollision furniture item mode tgt x y z = true ↔
      ∃ other ∈ furniture,
        other.id ≠ item.id ∧
          ¬(mode = true ∧ tgt = some other.id) ∧
            ¬(isSmallItem item.type = true ∧ isSmallItem other.type = true) ∧
              boxesOverlap (resolverBox item x y z)
                  (resolverBox other other.position.x other.position.y other.position.z) =
                true := by
  simp only [checkCollision, List.any_eq_true]
  refine exists_congr fun other => and_congr_right fun _ => ?_
  by_cases h1 : other.id = item.id
  · simp [h1]
  · by_cases h2 : mode = true ∧ tgt = some other.id
    · simp [h1, h2.1, h2.2]
    · by_cases h3 : isSmallItem item.type = true ∧ isSmallItem other.type = true
      · simp [h1, h2, h3]
      · simp [h1, h2, h3, resolverBox, shrinkFactor]

/-- C5: the collision test reports a collision exactly when some eligible
other live item (not the candidate itself and, in detail-edit mode, not the
host, and not forming a small–small pair with the candidate) has an
effective axis-aligned box — rotation-projected, shrink-adjusted, vertical
extent height·shrink starting at y — overlapping the effective
box on all three axes. -/
theorem checkCollision_characterised (furniture : List FurnitureItem) (item : FurnitureItem)
    (mode : Bool) (tgt : Option String) (x y z : ℚ) :
    checkCollision furniture item mode tgt x y z = true ↔
      ∃ other ∈ furniture,
        other.id ≠ item.id ∧
          ¬(mode = true ∧ tgt = some other.id) ∧
            ¬(isSmallItem item.type = true ∧ isSmallItem other.type = true) ∧
              boxesOverlap (resolverBox item x y z)
                  (resolverBox other other.position.x other.position.y other.position.z) =
                true :=
  checkCollision_iff_exists furniture item mode tgt x y z

/-- C1: small–small pairs are skipped unconditionally — removing every live
item that would form a small–small pair with the dragged item never changes
the collision verdict, so a collision can only arise from a pair in which at
least one item is large-class. -/
theorem checkCollision_small_pairs_exempt (furniture : List FurnitureItem)
    (item : FurnitureItem) (mode : Bool) (tgt : Option String) (x y z : ℚ) :
    checkCollision furniture item mode tgt x y z =
      checkCollision
        (furniture.filter fun other => !(isSmallItem item.type && isSmallItem other.type))
        item mode tgt x y z := by
  rw [Bool.eq_iff_iff, checkCollision_iff_exists, checkCollision_iff_exists]
  constructor
  · rintro ⟨other, hmem, hne, hdetail, hsmall, hoverlap⟩
    refine ⟨other, List.mem_filter.mpr ⟨hmem, ?_⟩, hne, hdetail, hsmall, hoverlap⟩
    rcases Bool.eq_false_or_eq_true (isSmallItem item.type) with ha | ha
    · rcases Bool.eq_false_or_eq_true (isSmallItem other.type) with hb | hb
      · exact absurd ⟨ha, hb⟩ hsmall
      · simp [ha, hb]
    · simp [ha]
  · rintro ⟨other, hmem, hne, hdetail, hsmall, hoverlap⟩
    exact ⟨other, (List.mem_filter.mp hmem).1, hne, hdetail, hsmall, hoverlap⟩

structure RoomDimensions where
  width : ℚ
  length : ℚ
  height : ℚ
  deriving DecidableEq

/-- DraggableFurniture.clampPosition: clamp a candidate (x, z) so the
rotation-projected half extents (no shrink factor) stay inside the room
footprint. -/
def clampPosition (room : RoomDimensions) (item : FurnitureItem) (x z : ℚ) : ℚ × ℚ :=
  let halfWidth := item.dimensions.width / 2
  let halfDepth := item.dimensions.depth / 2
  let roomHalfWidth := room.width / 2
  let roomHalfLength := room.length / 2
  let cos := item.absCos
  let sin := item.absSin
  let effectiveHalfWidth := halfWidth * cos + halfDepth * sin
  let effectiveHalfDepth := halfWidth * sin + halfDepth * cos
  (max (-roomHalfWidth + effectiveHalfWidth) (min (roomHalfWidth - effectiveHalfWidth) x),
    max (-roomHalfLength + effectiveHalfDepth) (min (roomHalfLength - effectiveHalfDepth) z))

/-- The position written by the active pointer-move branch of the useDrag
handler: snap both raycast plane coordinates to the grid, then clamp —
against the detail-mode host footprint (nominal half dimensions of host and
item minus a 0.02 margin) when a host is set, otherwise against the room via
clampPosition — and keep the current y. -/
def dragMovePosition (gridSize : ℚ) (room : RoomDimensions) (item : FurnitureItem)
    (targetFurniture : Option FurnitureItem) (px pz : ℚ) : Vec3 :=
  let newX := snapToGrid gridSize item.type px
  let newZ := snapToGrid gridSize item.type pz
  match targetFurniture with
  | some tf =>
      let halfW := tf.dimensions.width / 2 - item.dimensions.width / 2 - 1 / 50
      let halfD := tf.dimensions.depth / 2 - item.dimensions.depth / 2 - 1 / 50
      let cx := max (tf.position.x - halfW) (min (tf.position.x + halfW) newX)
      let cz := max (tf.position.z - halfD) (min (tf.position.z + halfD) newZ)
      ⟨cx, item.position.y, cz⟩
  | none =>
      let c := clampPosition room item newX newZ
      ⟨c.1, item.position.y, c.2⟩

theorem clamp_in_interval (lo hi v : ℚ) (h : lo ≤ hi) :
    lo ≤ max lo (min hi v) ∧ max lo (min hi v) ≤ hi :=
  ⟨le_max_left _ _, max_le h (min_le_left _ _)⟩

theorem shrinkFactor_nonneg (type : String) : 0 ≤ shrinkFactor type := by
  unfold shrinkFactor
  split <;> norm_num

theorem shrinkFactor_le_one (type : String) : shrinkFactor type ≤ 1 := by
  unfold shrinkFactor
  split <;> norm_num

/-- C4 (amended to normal mode, for an item whose projected footprint fits
the room): every position written during an active normal-mode drag is
clamped so that even the unshrunk rotation-projected footprint stays inside
the room, hence the bounds-resolver effective box lies fully inside the room
footprint. -/
theorem dragMove_normal_inside_room (gridSize : ℚ) (room : RoomDimensions)
    (item : FurnitureItem) (px pz : ℚ)
    (hw : 0 ≤ item.dimensions.width) (hd : 0 ≤ item.dimensions.depth)
    (hc : 0 ≤ item.absCos) (hs : 0 ≤ item.absSin)
    (hfitw : item.dimensions.width / 2 * item.absCos + item.dimensions.depth / 2 * item.absSin ≤
      room.width / 2)
    (hfitd : item.dimensions.width / 2 * item.absSin + item.dimensions.depth / 2 * item.absCos ≤
      room.length / 2) :
    -(room.width / 2) ≤
        (resolverBox item (dragMovePosition gridSize room item none px pz).x
            (dragMovePosition gridSize room item none px pz).y
            (dragMovePosition gridSize room item none px pz).z).minX ∧
      (resolverBox item (dragMovePosition gridSize room item none px pz).x
            (dragMovePosition gridSize room item none px pz).y
            (dragMovePosition gridSize room item none px pz).z).maxX ≤ room.width / 2 ∧
        -(room.length / 2) ≤
            (resolverBox item (dragMovePosition gridSize room item none px pz).x
                (dragMovePosition gridSize room item none px pz).y
                (dragMovePosition gridSize room item none px pz).z).minZ ∧
          (resolverBox item (dragMovePosition gridSize room item none px pz).x
                (dragMovePosition gridSize room item none px pz).y
                (dragMovePosition gridSize room item none px pz).z).maxZ ≤ room.length / 2 := by
  have hEw : 0 ≤ item.dimensions.width / 2 * item.absCos + item.dimensions.depth / 2 * item.absSin := by
    have u1 : 0 ≤ item.dimensions.width / 2 * item.absCos :=
      mul_nonneg (by linarith) hc
    have u2 : 0 ≤ item.dimensions.depth / 2 * item.absSin :=
      mul_nonneg (by linarith) hs
    linarith
  have hEd : 0 ≤ item.dimensions.width / 2 * item.absSin + item.dimensions.depth / 2 * item.absCos := by
    have u1 : 0 ≤ item.dimensions.width / 2 * item.absSin :=
      mul_nonneg (by linarith) hs
    have u2 : 0 ≤ item.dimensions.depth / 2 * item.absCos :=
      mul_nonneg (by linarith) hc
    linarith
  have hk0 : 0 ≤ shrinkFactor item.type := shrinkFactor_nonneg item.type
  have hk1 : shrinkFactor item.type ≤ 1 := shrinkFactor_le_one item.type
  have hx := clamp_in_interval
    (-(room.width / 2) + (item.dimensions.width / 2 * item.absCos + item.dimensions.depth / 2 * item.absSin))
    (room.width / 2 - (item.dimensions.width / 2 * item.absCos + item.dimensions.depth / 2 * item.absSin))
    (snapToGrid gridSize item.type px) (by linarith)
  have hz := clamp_in_interval
    (-(room.length / 2) + (item.dimensions.width / 2 * item.absSin + item.dimensions.depth / 2 * item.absCos))
    (room.length / 2 - (item.dimensions.width / 2 * item.absSin + item.dimensions.depth / 2 * item.absCos))
    (snapToGrid gridSize item.type pz) (by linarith)
  have hkw : (item.dimensions.width * item.absCos + item.dimensions.depth * item.absSin) *
        shrinkFactor item.type / 2 ≤
      item.dimensions.width / 2 * item.absCos + item.dimensions.depth / 2 * item.absSin := by
    have he : (item.dimensions.width * item.absCos + item.dimensions.depth * item.absSin) / 2 =
        item.dimensions.width / 2 * item.absCos + item.dimensions.depth / 2 * item.absSin := by ring
    calc (item.dimensions.width * item.absCos + item.dimensions.depth * item.absSin) *
          shrinkFactor item.type / 2
        = (item.dimensions.width * item.absCos + item.dimensions.depth * item.absSin) / 2 *
            shrinkFactor item.type := by ring
      _ ≤ (item.dimensions.width * item.absCos + item.dimensions.depth * item.absSin) / 2 * 1 := by
          refine mul_le_mul_of_nonneg_left hk1 ?_
          rw [he]; exact hEw
      _ = (item.dimensions.width * item.absCos + item.dimensions.depth * item.absSin) / 2 := by ring
      _ = item.dimensions.width / 2 * item.absCos + item.dimensions.depth / 2 * item.absSin := he
  have hkw0 : 0 ≤ (item.dimensions.width * item.absCos + item.dimensions.depth * item.absSin) *
      shrinkFactor item.type / 2 := by
    have he : (item.dimensions.width * item.absCos + item.dimensions.depth * item.absSin) / 2 =
        item.dimensions.width / 2 * item.absCos + item.dimensions.depth / 2 * item.absSin := by ring
    have : 0 ≤ (item.dimensions.width * item.absCos + item.dimensions.depth * item.absSin) / 2 := by
      rw [he]; exact hEw
    calc (0:ℚ) = 0 * shrinkFactor item.type := by ring
      _ ≤ (item.dimensions.width * item.absCos + item.dimensions.depth * item.absSin) / 2 *
          shrinkFactor item.type := mul_le_mul_of_nonneg_right this hk0
      _ = (item.dimensions.width * item.absCos + item.dimensions.depth * item.absSin) *
          shrinkFactor item.type / 2 := by ring
  have hkd : (item.dimensions.width * item.absSin + item.dimensions.depth * item.absCos) *
        shrinkFactor item.type / 2 ≤
      item.dimensions.width / 2 * item.absSin + item.dimensions.depth / 2 * item.absCos := by
    have he : (item.dimensions.width * item.absSin + item.dimensions.depth * item.absCos) / 2 =
        item.dimensions.width / 2 * item.absSin + item.dimensions.depth / 2 * item.absCos := by ring
    calc (item.dimensions.width * item.absSin + item.dimensions.depth * item.absCos) *
          shrinkFactor item.type / 2
        = (item.dimensions.width * item.absSin + item.dimensions.depth * item.absCos) / 2 *
            shrinkFactor item.type := by ring
      _ ≤ (item.dimensions.width * item.absSin + item.dimensions.depth * item.absCos) / 2 * 1 := by
          refine mul_le_mul_of_nonneg_left hk1 ?_
          rw [he]; exact hEd
      _ = (item.dimensions.width * item.absSin + item.dimensions.depth * item.absCos) / 2 := by ring
      _ = item.dimensions.width / 2 * item.absSin + item.dimensions.depth / 2 * item.absCos := he
  have hkd0 : 0 ≤ (item.dimensions.width * item.absSin + item.dimensions.depth * item.absCos) *
      shrinkFactor item.type / 2 := by
    have he : (item.dimensions.width * item.absSin + item.dimensions.depth * item.absCos) / 2 =
        item.dimensions.width / 2 * item.absSin + item.dimensions.depth / 2 * item.absCos := by ring
    have : 0 ≤ (item.dimensions.width * item.absSin + item.dimensions.depth * item.absCos) / 2 := by
      rw [he]; exact hEd
    calc (0:ℚ) = 0 * shrinkFactor item.type := by ring
      _ ≤ (item.dimensions.width * item.absSin + item.dimensions.depth * item.absCos) / 2 *
          shrinkFactor item.type := mul_le_mul_of_nonneg_right this hk0
      _ = (item.dimensions.width * item.absSin + item.dimensions.depth * item.absCos) *
          shrinkFactor item.type / 2 := by ring
  simp only [dragMovePosition, clampPosition, resolverBox] at *
  refine ⟨by linarith [hx.1], by linarith [hx.2], by linarith [hz.1], by linarith [hz.2]⟩

def wRoom : RoomDimensions := ⟨5, 4, 14 / 5⟩

def wDesk : FurnitureItem :=
  { id := "b", type := "desk", position := ⟨0, 0, 0⟩, absCos := 1, absSin := 0,
    dimensions := ⟨6 / 5, 3 / 4, 3 / 5⟩, color := "tan", orientation := none,
    spineColor := none, sizeVariant := none }

theorem dragMove_normal_inside_room_witness :
    (0 : ℚ) ≤ wDesk.dimensions.width ∧
      (-(wRoom.width / 2) ≤
          (resolverBox wDesk (dragMovePosition (1 / 10) wRoom wDesk none 10 (-10)).x
              (dragMovePosition (1 / 10) wRoom wDesk none 10 (-10)).y
              (dragMovePosition (1 / 10) wRoom wDesk none 10 (-10)).z).minX ∧
        (resolverBox wDesk (dragMovePosition (1 / 10) wRoom wDesk none 10 (-10)).x
              (dragMovePosition (1 / 10) wRoom wDesk none 10 (-10)).y
              (dragMovePosition (1 / 10) wRoom wDesk none 10 (-10)).z).maxX ≤ wRoom.width / 2 ∧
          -(wRoom.length / 2) ≤
              (resolverBox wDesk (dragMovePosition (1 / 10) wRoom wDesk none 10 (-10)).x
                  (dragMovePosition (1 / 10) wRoom wDesk none 10 (-10)).y
                  (dragMovePosition (1 / 10) wRoom wDesk none 10 (-10)).z).minZ ∧
            (resolverBox wDesk (dragMovePosition (1 / 10) wRoom wDesk none 10 (-10)).x
                  (dragMovePosition (1 / 10) wRoom wDesk none 10 (-10)).y
                  (dragMovePosition (1 / 10) wRoom wDesk none 10 (-10)).z).maxZ ≤
              wRoom.length / 2) :=
  ⟨by with_unfolding_all decide,
    dragMove_normal_inside_room (1 / 10) wRoom wDesk 10 (-10)
      (by with_unfolding_all decide) (by with_unfolding_all decide)
      (by with_unfolding_all decide) (by with_unfolding_all decide)
      (by with_unfolding_all decide) (by with_unfolding_all decide)⟩

def cexHost : FurnitureItem :=
  { id := "host", type := "bookshelf", position := ⟨0, 0, 0⟩, absCos := 1, absSin := 0,
    dimensions := ⟨1, 6 / 5, 1⟩, color := "oak", orientation := none,
    spineColor := none, sizeVariant := none }

def cexRotated : FurnitureItem :=
  { id := "pc", type := "gaming_pc", position := ⟨0, 0, 0⟩, absCos := 0, absSin := 1,
    dimensions := ⟨1 / 5, 1 / 2, 4 / 5⟩, color := "black", orientation := none,
    spineColor := none, sizeVariant := none }

/-- C4 counterexample: the detail-edit clamp uses the unrotated nominal half
dimensions, so a 90-degree-rotated item is written to a position whose
rotation-projected, shrink-adjusted effective footprint extends past the
host footprint on the x axis. -/
theorem dragMove_detail_outside_host :
    (resolverBox cexRotated
          (dragMovePosition (1 / 10) wRoom cexRotated (some cexHost) 10 0).x
          (dragMovePosition (1 / 10) wRoom cexRotated (some cexHost) 10 0).y
          (dragMovePosition (1 / 10) wRoom cexRotated (some cexHost) 10 0).z).maxX >
      cexHost.position.x + cexHost.dimensions.width / 2 := by
  with_unfolding_all decide

def byId (id : String) (f : FurnitureItem) : Bool :=
  decide (f.id = id)

/-- Store action updateFurniturePosition: replace the position of the item
with the given id, leaving every other item untouched. -/
def updateFurniturePosition (furniture : List FurnitureItem) (id : String)
    (position : Vec3) : List FurnitureItem :=
  furniture.map fun f => if f.id = id then { f with position := position } else f

/-- Position of the item with the given id, as the store exposes it. -/
def posOf (furniture : List FurnitureItem) (id : String) : Option Vec3 :=
  (furniture.find? (byId id)).map FurnitureItem.position

theorem find?_map_of_id_preserved (l : List FurnitureItem)
    (g : FurnitureItem → FurnitureItem) (id : String) (hg : ∀ f, (g f).id = f.id) :
    (l.map g).find? (byId id) = (l.find? (byId id)).map g := by
  induction l with
  | nil => rfl
  | cons f rest ih =>
      by_cases h : f.id = id
      · simp [List.find?_cons, byId, h, hg f]
      · simp [List.find?_cons, byId, h, hg f, ih]

theorem posOf_update_self (furniture : List FurnitureItem) (id : String) (p : Vec3)
    (h : (furniture.find? (byId id)).isSome = true) :
    posOf (updateFurniturePosition furniture id p) id = some p := by
  unfold posOf updateFurniturePosition
  rw [find?_map_of_id_preserved]
  · rcases hfind : furniture.find? (byId id) with _ | f
    · rw [hfind] at h
      simp at h
    · have hid : f.id = id := by
        have := List.find?_some hfind
        simpa [byId] using this
      simp [hid]
  · intro f
    by_cases hf : f.id = id <;> simp [hf]

/-- The drop branch of the useDrag handler (the not-active call): run the
collision check at the live position; on collision restore the captured
start position, otherwise leave the list untouched and play the placement
sound; clear the drag flag either way.  Result: (furniture, isDragging,
placement-success signal emitted). -/
def dragEnd (furniture : List FurnitureItem) (item : FurnitureItem) (startPos : Vec3)
    (isInDetailMode : Bool) (detailModeTarget : Option String) :
    List FurnitureItem × Bool × Bool :=
  let collision := checkCollision furniture item isInDetailMode detailModeTarget
    item.position.x item.position.y item.position.z
  if collision then
    (updateFurniturePosition furniture item.id startPos, false, false)
  else
    (furniture, false, true)

/-- C2: when an active drag ends, a colliding final position makes the
handler restore the item exactly to the captured start position with no
success signal, a collision-free final position leaves the furniture list
untouched (the item stays at its live position) and emits the
placement-success signal, and the shared drag flag is cleared either way. -/
theorem dragEnd_commit_or_revert (furniture : List FurnitureItem) (item : FurnitureItem)
    (startPos : Vec3) (mode : Bool) (tgt : Option String)
    (hmem : furniture.find? (byId item.id) = some item) :
    (dragEnd furniture item startPos mode tgt).2.1 = false ∧
      (checkCollision furniture item mode tgt item.position.x item.position.y
            item.position.z = true →
        posOf (dragEnd furniture item startPos mode tgt).1 item.id = some startPos ∧
          (dragEnd furniture item startPos mode tgt).2.2 = false) ∧
        (checkCollision furniture item mode tgt item.position.x item.position.y
              item.position.z = false →
          (dragEnd furniture item startPos mode tgt).1 = furniture ∧
            posOf (dragEnd furniture item startPos mode tgt).1 item.id =
                some item.position ∧
              (dragEnd furniture item startPos mode tgt).2.2 = true) := by
  by_cases hcoll : checkCollision furniture item mode tgt item.position.x
      item.position.y item.position.z = true
  · refine ⟨by simp [dragEnd, hcoll], fun _ => ⟨?_, by simp [dragEnd, hcoll]⟩,
      fun hfalse => absurd hcoll (by simp [hfalse])⟩
    simp only [dragEnd, hcoll, if_true]
    exact posOf_update_self furniture item.id startPos (by simp [hmem])
  · have hfalse : checkCollision furniture item mode tgt item.position.x
        item.position.y item.position.z = false := by
      simpa using hcoll
    refine ⟨by simp [dragEnd, hfalse], fun htrue => absurd htrue hcoll,
      fun _ => ⟨by simp [dragEnd, hfalse], ?_, by simp [dragEnd, hfalse]⟩⟩
    simp [dragEnd, hfalse, posOf, hmem]

def wBed : FurnitureItem :=
  { id := "a", type := "bed", position := ⟨0, 0, 0⟩, absCos := 1, absSin := 0,
    dimensions := ⟨8 / 5, 1 / 2, 2⟩, color := "beige", orientation := none,
    spineColor := none, sizeVariant := none }

def wFurnPair : List FurnitureItem :=
  [wBed, wDesk]

theorem dragEnd_commit_or_revert_witness :
    wFurnPair.find? (byId wDesk.id) = some wDesk ∧
      checkCollision wFurnPair wDesk false none wDesk.position.x wDesk.position.y
          wDesk.position.z = true ∧
        posOf (dragEnd wFurnPair wDesk ⟨2, 0, 1⟩ false none).1 wDesk.id =
          some ⟨2, 0, 1⟩ :=
  ⟨by with_unfolding_all decide, by with_unfolding_all decide,
    ((dragEnd_commit_or_revert wFurnPair wDesk ⟨2, 0, 1⟩ false none
          (by with_unfolding_all decide)).2.1 (by with_unfolding_all decide)).1⟩

structure ScannedItem where
  id : String
  makerspaceItemId : String
  name : String
  position : Vec3
  rotation : ℚ
  dimensions : Dims
  blobUrl : String
  deriving DecidableEq

/-- The zustand room store state (the slices the verified claims touch). -/
structure RoomState where
  roomDimensions : RoomDimensions
  furniture : List FurnitureItem
  scannedItems : List ScannedItem
  selectedId : Option String
  selectedType : Option String
  isDragging : Bool
  detailModeTarget : Option String
  undoStack : List (List FurnitureItem)
  canUndo : Bool
  gridSize : ℚ
  showGrid : Bool
  deriving DecidableEq

/-- JS Array.slice(-n): the n most recent entries (the whole array when it
is shorter). -/
def takeLast {α : Type} (n : Nat) (l : List α) : List α :=
  l.drop (l.length - n)

/-- Store saveForUndo: deep-clone the furniture list (value semantics here),
push it, and keep only the 20 most recent entries; canUndo becomes true. -/
def saveForUndo (s : RoomState) : RoomState :=
  { s with
    undoStack := takeLast 20 (s.undoStack ++ [s.furniture])
    canUndo := true }

/-- Store undo: a no-op on an empty stack; otherwise pop the most recent
snapshot into the furniture list and recompute canUndo from the remaining
stack. -/
def undo (s : RoomState) : RoomState :=
  if s.undoStack.length = 0 then s
  else
    { s with
      furniture := s.undoStack.getLastD s.furniture
      undoStack := s.undoStack.dropLast
      canUndo := decide (0 < s.undoStack.dropLast.length) }

inductive StoreAction where
  | save
  | undo
  | setFurniture (f : List FurnitureItem)
  deriving DecidableEq

def applyAction (a : StoreAction) (s : RoomState) : RoomState :=
  match a with
  | .save => saveForUndo s
  | .undo => undo s
  | .setFurniture f => { s with furniture := f }

def runActions (actions : List StoreAction) (s : RoomState) : RoomState :=
  actions.foldl (fun st a => applyAction a st) s

/-- The initial state of the store (the zustand create defaults). -/
def initialState : RoomState :=
  { roomDimensions := ⟨5, 4, 14 / 5⟩
    furniture := []
    scannedItems := []
    selectedId := none
    selectedType := none
    isDragging := false
    detailModeTarget := none
    undoStack := []
    canUndo := false
    gridSize := 1 / 10
    showGrid := true }

theorem takeLast_length_le {α : Type} (n : Nat) (l : List α) :
    (takeLast n l).length ≤ n := by
  unfold takeLast
  simp only [List.length_drop]
  omega

theorem takeLast_of_le {α : Type} (n : Nat) (l : List α) (h : l.length ≤ n) :
    takeLast n l = l := by
  unfold takeLast
  have he : l.length - n = 0 := by omega
  simp [he]

theorem applyAction_stack_le (a : StoreAction) (s : RoomState)
    (h : s.undoStack.length ≤ 20) : ((applyAction a s).undoStack).length ≤ 20 := by
  cases a with
  | save => exact takeLast_length_le 20 _
  | undo =>
      simp only [applyAction, undo]
      split
      · exact h
      · simp only [List.length_dropLast]
        omega
  | setFurniture f => exact h

theorem runActions_stack_le (actions : List StoreAction) (s : RoomState)
    (h : s.undoStack.length ≤ 20) : ((runActions actions s).undoStack).length ≤ 20 := by
  induction actions generalizing s with
  | nil => exact h
  | cons a rest ih => exact ih _ (applyAction_stack_le a s h)

/-- C6: starting from the initial store state, no sequence of snapshot,
undo and furniture-mutation actions grows the undo stack past 20 entries;
a push onto a full stack of 20 drops the oldest entry and keeps the 20
most recent. -/
theorem undo_stack_bounded :
    (∀ actions : List StoreAction,
        ((runActions actions initialState).undoStack).length ≤ 20) ∧
      ∀ s : RoomState, s.undoStack.length = 20 →
        (saveForUndo s).undoStack = s.undoStack.drop 1 ++ [s.furniture] ∧
          (saveForUndo s).undoStack.length = 20 := by
  constructor
  · intro actions
    exact runActions_stack_le actions initialState (by simp [initialState])
  · intro s h
    have heq : (saveForUndo s).undoStack = s.undoStack.drop 1 ++ [s.furniture] := by
      unfold saveForUndo takeLast
      have hlen : (s.undoStack ++ [s.furniture]).length - 20 = 1 := by
        simp [h]
      rw [hlen, List.drop_append_of_le_length (by omega)]
    refine ⟨heq, ?_⟩
    rw [heq]
    simp [h]

def wStack20 : RoomState :=
  { initialState with
    undoStack := List.replicate 20 []
    furniture := [wBed] }

theorem undo_stack_bounded_witness :
    ((runActions [StoreAction.save] initialState).undoStack).length ≤ 20 ∧
      wStack20.undoStack.length = 20 ∧
        (saveForUndo wStack20).undoStack =
          wStack20.undoStack.drop 1 ++ [wStack20.furniture] :=
  ⟨undo_stack_bounded.1 [StoreAction.save], by with_unfolding_all decide,
    (undo_stack_bounded.2 wStack20 (by with_unfolding_all decide)).1⟩

/-- One snapshot-then-mutate pair per replacement list, as every mutating
store caller performs (saveForUndo before applying its change). -/
def pairsProgram : List (List FurnitureItem) → List StoreAction
  | [] => []
  | g :: rest => StoreAction.save :: StoreAction.setFurniture g :: pairsProgram rest

def undoN : Nat → RoomState → RoomState
  | 0, s => s
  | n + 1, s => undo (undoN n s)

/-- A fresh editing session: the initial store state with a given scene. -/
def freshState (furniture : List FurnitureItem) : RoomState :=
  { initialState with furniture := furniture }

theorem undo_of_stack_concat (s : RoomState) (l : List (List FurnitureItem))
    (f : List FurnitureItem) (h : s.undoStack = l ++ [f]) :
    undo s = { s with
      furniture := f
      undoStack := l
      canUndo := decide (0 < l.length) } := by
  unfold undo
  rw [h]
  simp

theorem undoN_runActions_pairs (gs : List (List FurnitureItem)) (s : RoomState)
    (h : s.undoStack.length + gs.length ≤ 20) :
    (undoN gs.length (runActions (pairsProgram gs) s)).furniture = s.furniture ∧
      (undoN gs.length (runActions (pairsProgram gs) s)).undoStack = s.undoStack ∧
        (gs ≠ [] →
          (undoN gs.length (runActions (pairsProgram gs) s)).canUndo =
            decide (0 < s.undoStack.length)) := by
  induction gs generalizing s with
  | nil => exact ⟨rfl, rfl, fun hne => absurd rfl hne⟩
  | cons g rest ih =>
      have hstep : runActions (pairsProgram (g :: rest)) s =
          runActions (pairsProgram rest)
            (applyAction (StoreAction.setFurniture g) (applyAction StoreAction.save s)) := rfl
      have hs2stack :
          (applyAction (StoreAction.setFurniture g) (applyAction StoreAction.save s)).undoStack =
            s.undoStack ++ [s.furniture] := by
        have hle : (s.undoStack ++ [s.furniture]).length ≤ 20 := by
          simp only [List.length_append, List.length_cons, List.length_nil]
          simp only [List.length_cons] at h
          omega
        simp [applyAction, saveForUndo, takeLast_of_le 20 _ hle]
      have hlen2 :
          (applyAction (StoreAction.setFurniture g) (applyAction StoreAction.save s)).undoStack.length +
            rest.length ≤ 20 := by
        rw [hs2stack]
        simp only [List.length_append, List.length_cons, List.length_nil]
        simp only [List.length_cons] at h
        omega
      obtain ⟨ihf, ihs, _⟩ := ih _ hlen2
      have hY : undoN (g :: rest).length (runActions (pairsProgram (g :: rest)) s) =
          undo (undoN rest.length (runActions (pairsProgram rest)
            (applyAction (StoreAction.setFurniture g) (applyAction StoreAction.save s)))) := rfl
      have hYstack :
          (undoN rest.length (runActions (pairsProgram rest)
            (applyAction (StoreAction.setFurniture g) (applyAction StoreAction.save s)))).undoStack =
            s.undoStack ++ [s.furniture] := by
        rw [ihs, hs2stack]
      have hfin := undo_of_stack_concat _ s.undoStack s.furniture hYstack
      rw [hY, hfin]
      exact ⟨rfl, rfl, fun _ => rfl⟩

/-- C7 (amended: the stack retains at most 20 snapshots, so the roundtrip
holds for N ≤ 20 mutations in a session that starts with an empty undo
stack): N snapshot-then-mutate pairs followed by N undo calls restore the
furniture collection, the stack is empty, canUndo is false, and one
further undo is a no-op. -/
theorem snapshot_undo_roundtrip (initFurn : List FurnitureItem)
    (gs : List (List FurnitureItem)) (hn : gs.length ≤ 20) :
    (undoN gs.length (runActions (pairsProgram gs) (freshState initFurn))).furniture =
        initFurn ∧
      (undoN gs.length (runActions (pairsProgram gs) (freshState initFurn))).undoStack = [] ∧
        (undoN gs.length (runActions (pairsProgram gs) (freshState initFurn))).canUndo =
            false ∧
          undo (undoN gs.length (runActions (pairsProgram gs) (freshState initFurn))) =
            undoN gs.length (runActions (pairsProgram gs) (freshState initFurn)) := by
  obtain ⟨hf, hs, hc⟩ := undoN_runActions_pairs gs (freshState initFurn)
    (by simp [freshState, initialState]; omega)
  refine ⟨hf, hs, ?_, ?_⟩
  · cases gs with
    | nil => rfl
    | cons g rest =>
        have := hc (by simp)
        simpa [freshState, initialState] using this
  · have hs0 :
        (undoN gs.length (runActions (pairsProgram gs) (freshState initFurn))).undoStack =
          [] := hs.trans rfl
    unfold undo
    rw [hs0]
    simp

def wBook : FurnitureItem :=
  { id := "k", type := "book", position := ⟨0, 0, 0⟩, absCos := 1, absSin := 0,
    dimensions := ⟨3 / 20, 11 / 50, 3 / 100⟩, color := "red",
    orientation := some BookOrientation.upright, spineColor := some "red",
    sizeVariant := none }

theorem snapshot_undo_roundtrip_witness :
    [[wBook], [wBook, wBed]].length ≤ 20 ∧
      (undoN [[wBook], [wBook, wBed]].length
            (runActions (pairsProgram [[wBook], [wBook, wBed]])
              (freshState [wBed]))).furniture = [wBed] :=
  ⟨by with_unfolding_all decide,
    (snapshot_undo_roundtrip [wBed] [[wBook], [wBook, wBed]]
        (by with_unfolding_all decide)).1⟩

/-- C7 counterexample: with N = 21 the oldest snapshot is evicted, so 21
snapshot-then-mutate pairs followed by 21 undo calls do not restore the
initial empty scene. -/
def gs21 : List (List FurnitureItem) :=
  (List.range 21).map fun n => [{ wBed with position := ⟨(n : ℚ), 0, 0⟩ }]

set_option maxRecDepth 4000 in
theorem snapshot_undo_roundtrip_cex :
    (undoN 21 (runActions (pairsProgram gs21) (freshState []))).furniture ≠ [] := by
  with_unfolding_all decide

/-- C10: undo writes only the furniture list, the undo stack and the canUndo
flag — room dimensions, grid size, selection, detail-mode target, the placed
scanned-model items, the drag flag and the grid toggle are untouched, so
positions of placed scanned models are never reverted by undo. -/
theorem undo_frame (s : RoomState) :
    (undo s).roomDimensions = s.roomDimensions ∧
      (undo s).gridSize = s.gridSize ∧
        (undo s).selectedId = s.selectedId ∧
          (undo s).selectedType = s.selectedType ∧
            (undo s).detailModeTarget = s.detailModeTarget ∧
              (undo s).scannedItems = s.scannedItems ∧
                (undo s).isDragging = s.isDragging ∧
                  (undo s).showGrid = s.showGrid := by
  unfold undo
  split <;> simp

/-- A parsed import document: absent top-level fields are none. -/
structure ImportDoc where
  roomDimensions : Option RoomDimensions
  furniture : Option (List FurnitureItem)
  scannedItems : Option (List ScannedItem)
  gridSize : Option ℚ
  deriving DecidableEq

/-- The four store fields importRoom writes, with Option to reflect that a
JS store field can hold undefined after a bad import; in a well-formed live
state both required fields are present. -/
structure StoreSnapshot where
  roomDimensions : Option RoomDimensions
  furniture : Option (List FurnitureItem)
  scannedItems : List ScannedItem
  gridSize : ℚ
  deriving DecidableEq

def RoomState.snapshotFields (s : RoomState) : StoreSnapshot :=
  ⟨some s.roomDimensions, some s.furniture, s.scannedItems, s.gridSize⟩

/-- The JS default `data.gridSize || 0.25` (zero is falsy). -/
def jsOrGrid : Option ℚ → ℚ
  | none => 1 / 4
  | some g => if g = 0 then 1 / 4 else g

/-- The JS default `data.scannedItems || []`. -/
def jsOrEmpty : Option (List ScannedItem) → List ScannedItem
  | none => []
  | some l => l

/-- Store importRoom.  JSON.parse is modelled as an oracle: none for input
whose parse throws, some doc for a parsed object whose absent top-level
fields are none.  The catch branch returns false writing nothing; a parsed
document replaces the four fields wholesale — missing scannedItems defaults
to [], missing or zero gridSize to 0.25, and missing roomDimensions or
furniture are stored as undefined — and true is returned.  There is no
check that the required fields are present. -/
def importRoom (parsed : Option ImportDoc) (s : RoomState) : Bool × StoreSnapshot :=
  match parsed with
  | none => (false, s.snapshotFields)
  | some d => (true, ⟨d.roomDimensions, d.furniture, jsOrEmpty d.scannedItems, jsOrGrid d.gridSize⟩)

/-- C3 (amended): importRoom returns a failure and leaves every store field
unchanged exactly when the document fails to parse; a document that parses
is applied wholesale and reported as success even when the required
top-level fields (room dimensions, furniture array) are absent. -/
theorem importRoom_spec (s : RoomState) (d : ImportDoc) :
    importRoom none s = (false, s.snapshotFields) ∧
      (importRoom (some d) s).1 = true ∧
        (importRoom (some d) s).2 =
          ⟨d.roomDimensions, d.furniture, jsOrEmpty d.scannedItems, jsOrGrid d.gridSize⟩ :=
  ⟨rfl, rfl, rfl⟩

/-- The parse of the document with no top-level fields (for instance the
input consisting of an empty JSON object). -/
def emptyDoc : ImportDoc :=
  ⟨none, none, none, none⟩

/-- C3 counterexample: a document that parses but is missing the required
room dimensions and furniture fields is not rejected — importRoom reports
success and mutates the live fields (the furniture slot is overwritten with
undefined). -/
theorem importRoom_missing_fields_cex :
    (importRoom (some emptyDoc) (freshState [wBed])).1 = true ∧
      (importRoom (some emptyDoc) (freshState [wBed])).2 ≠
        (freshState [wBed]).snapshotFields := by
  constructor
  · rfl
  · with_unfolding_all decide

/-- The book-type check of the detail-edit component (books, stacks and
manga support orientations). -/
def isBookType (type : String) : Bool :=
  decide (type ∈ ["book", "book_stack", "manga"])

/-- Store action updateFurnitureOrientation. -/
def updateFurnitureOrientation (furniture : List FurnitureItem) (id : String)
    (orientation : BookOrientation) : List FurnitureItem :=
  furniture.map fun f =>
    if f.id = id then { f with orientation := some orientation } else f

/-- Orientation of the item with the given id, as the store exposes it. -/
def orientOf (furniture : List FurnitureItem) (id : String) :
    Option (Option BookOrientation) :=
  (furniture.find? (byId id)).map FurnitureItem.orientation

/-- DetailEditMode.getBooksOnFurniture: the book-type items whose horizontal
deltas from the host center both fall inside the threshold derived from
the host footprint. -/
def getBooksOnFurniture (furniture : List FurnitureItem) (target : FurnitureItem) :
    List FurnitureItem :=
  furniture.filter fun f =>
    isBookType f.type &&
      (decide (|f.position.x - target.position.x| <
          max target.dimensions.width target.dimensions.depth / 2 + 1 / 10) &&
        decide (|f.position.z - target.position.z| <
          max target.dimensions.width target.dimensions.depth / 2 + 1 / 10))

/-- The JS expression (book.sizeVariant OR 1): absent and zero fall back to 1. -/
def jsOr1 : Option ℚ → ℚ
  | none => 1
  | some v => if v = 0 then 1 else v

/-- Spine thickness arrangeRow uses per book: depth scaled by size variant. -/
def spineWidth (book : FurnitureItem) : ℚ :=
  book.dimensions.depth * jsOr1 book.sizeVariant

/-- The forEach loop of arrangeRow: place each book at the running x plus
half its spine width, at the shared base height and center z, set it
upright, and advance the running x by the spine width plus the 0.005 gap. -/
def rowPlace (baseY centerZ : ℚ) : ℚ → List FurnitureItem → List FurnitureItem →
    List FurnitureItem
  | _, furn, [] => furn
  | x, furn, b :: bs =>
      rowPlace baseY centerZ (x + spineWidth b + 1 / 200)
        (updateFurnitureOrientation
          (updateFurniturePosition furn b.id ⟨x + spineWidth b / 2, baseY, centerZ⟩)
          b.id BookOrientation.upright)
        bs

/-- DetailEditMode.arrangeRow: collect the books on the host, then place
them left to right from the host left edge plus the 0.05 margin, at the
host base height plus 0.02 and the host center z.  (The saveForUndo
call of the source only snapshots for undo and does not move anything; the
undo model covers it separately.) -/
def arrangeRow (furniture : List FurnitureItem) (target : FurnitureItem) :
    List FurnitureItem :=
  let books := getBooksOnFurniture furniture target
  if books.length < 1 then furniture
  else
    rowPlace (target.position.y + 1 / 50) target.position.z
      (target.position.x - target.dimensions.width / 2 + 1 / 20) furniture books

/-- Cumulative offset of the i-th book in a row: the spine widths of the
preceding books plus one 0.005 gap per preceding book. -/
def rowOffset (books : List FurnitureItem) (i : Nat) : ℚ :=
  ((books.take i).map fun b => spineWidth b + 1 / 200).sum

theorem rowOffset_zero (books : List FurnitureItem) : rowOffset books 0 = 0 := by
  simp [rowOffset]

theorem rowOffset_cons_succ (b : FurnitureItem) (bs : List FurnitureItem) (j : Nat) :
    rowOffset (b :: bs) (j + 1) = spineWidth b + 1 / 200 + rowOffset bs j := by
  unfold rowOffset
  simp

theorem find?_update_pair (furn : List FurnitureItem) (bid id : String) (p : Vec3)
    (o : BookOrientation) :
    (updateFurnitureOrientation (updateFurniturePosition furn bid p) bid o).find?
        (byId id) =
      (furn.find? (byId id)).map fun f =>
        if f.id = bid then { f with position := p, orientation := some o } else f := by
  unfold updateFurnitureOrientation updateFurniturePosition
  rw [find?_map_of_id_preserved _ _ _ fun f => by by_cases hf : f.id = bid <;> simp [hf]]
  rw [find?_map_of_id_preserved _ _ _ fun f => by by_cases hf : f.id = bid <;> simp [hf]]
  rw [Option.map_map]
  rcases furn.find? (byId id) with _ | f
  · rfl
  · by_cases hf : f.id = bid
    · simp [Function.comp, hf]
    · simp [Function.comp, hf]

theorem find?_update_pair_of_ne (furn : List FurnitureItem) (bid id : String)
    (p : Vec3) (o : BookOrientation) (hne : id ≠ bid) :
    (updateFurnitureOrientation (updateFurniturePosition furn bid p) bid o).find?
        (byId id) = furn.find? (byId id) := by
  rw [find?_update_pair]
  rcases hfind : furn.find? (byId id) with _ | f
  · rfl
  · have hid : f.id = id := by
      have := List.find?_some hfind
      simpa [byId] using this
    simp [hid, hne]

theorem isSome_find?_update_pair (furn : List FurnitureItem) (bid id : String)
    (p : Vec3) (o : BookOrientation) :
    ((updateFurnitureOrientation (updateFurniturePosition furn bid p) bid o).find?
          (byId id)).isSome = ((furn.find? (byId id))).isSome := by
  rw [find?_update_pair]
  rcases furn.find? (byId id) with _ | f <;> rfl

theorem rowPlace_find?_not_mem (baseY centerZ : ℚ) (bs : List FurnitureItem) :
    ∀ (x : ℚ) (furn : List FurnitureItem) (id : String),
      id ∉ bs.map FurnitureItem.id →
      (rowPlace baseY centerZ x furn bs).find? (byId id) = furn.find? (byId id) := by
  induction bs with
  | nil => intro x furn id _; rfl
  | cons b rest ih =>
      intro x furn id hid
      have hne : id ≠ b.id := by
        intro he
        exact hid (by simp [he])
      have hrest : id ∉ rest.map FurnitureItem.id := by
        intro he
        exact hid (by simp [he])
      show (rowPlace baseY centerZ _ _ rest).find? (byId id) = _
      rw [ih _ _ _ hrest, find?_update_pair_of_ne _ _ _ _ _ hne]

theorem rowPlace_find (baseY centerZ : ℚ) (bs : List FurnitureItem) :
    ∀ (x : ℚ) (furn : List FurnitureItem) (i : Nat) (hi : i < bs.length),
      (bs.map FurnitureItem.id).Nodup →
      (∀ b ∈ bs, ((furn.find? (byId b.id))).isSome = true) →
      posOf (rowPlace baseY centerZ x furn bs) (bs.get ⟨i, hi⟩).id =
          some ⟨x + rowOffset bs i + spineWidth (bs.get ⟨i, hi⟩) / 2, baseY, centerZ⟩ ∧
        orientOf (rowPlace baseY centerZ x furn bs) (bs.get ⟨i, hi⟩).id =
          some (some BookOrientation.upright) := by
  induction bs with
  | nil =>
      intro x furn i hi
      exact absurd hi (by simp)
  | cons b rest ih =>
      intro x furn i hi hnodup hsome
      have hpair : (∀ x ∈ rest, ¬x.id = b.id) ∧ (rest.map FurnitureItem.id).Nodup := by
        simpa using hnodup
      have hbnotin : b.id ∉ rest.map FurnitureItem.id := by
        intro hmem
        rcases List.mem_map.mp hmem with ⟨c, hc, hcid⟩
        exact hpair.1 c hc hcid
      have hrestnodup : (rest.map FurnitureItem.id).Nodup := hpair.2
      cases i with
      | zero =>
          have hfind :
              (rowPlace baseY centerZ (x + spineWidth b + 1 / 200)
                  (updateFurnitureOrientation
                    (updateFurniturePosition furn b.id
                      ⟨x + spineWidth b / 2, baseY, centerZ⟩)
                    b.id BookOrientation.upright) rest).find? (byId b.id) =
                (updateFurnitureOrientation
                  (updateFurniturePosition furn b.id
                    ⟨x + spineWidth b / 2, baseY, centerZ⟩)
                  b.id BookOrientation.upright).find? (byId b.id) :=
            rowPlace_find?_not_mem baseY centerZ rest _ _ _ hbnotin
          have hsb : ((furn.find? (byId b.id))).isSome = true :=
            hsome b (by simp)
          rcases hf0 : furn.find? (byId b.id) with _ | f0
          · rw [hf0] at hsb
            simp at hsb
          · have hid0 : f0.id = b.id := by
              have := List.find?_some hf0
              simpa [byId] using this
            constructor
            · show posOf (rowPlace baseY centerZ _ _ rest) (b.id) = _
              unfold posOf
              rw [hfind, find?_update_pair, hf0]
              simp [hid0, rowOffset_zero]
            · show orientOf (rowPlace baseY centerZ _ _ rest) (b.id) = _
              unfold orientOf
              rw [hfind, find?_update_pair, hf0]
              simp [hid0]
      | succ j =>
          have hj : j < rest.length := by simpa using hi
          have hsome2 : ∀ b2 ∈ rest,
              (((updateFurnitureOrientation
                  (updateFurniturePosition furn b.id
                    ⟨x + spineWidth b / 2, baseY, centerZ⟩)
                  b.id BookOrientation.upright).find? (byId b2.id))).isSome = true := by
            intro b2 hb2
            rw [isSome_find?_update_pair]
            exact hsome b2 (by simp [hb2])
          have hrec := ih (x + spineWidth b + 1 / 200)
            (updateFurnitureOrientation
              (updateFurniturePosition furn b.id
                ⟨x + spineWidth b / 2, baseY, centerZ⟩)
              b.id BookOrientation.upright) j hj hrestnodup hsome2
          have hxeq : x + spineWidth b + 1 / 200 + rowOffset rest j =
              x + rowOffset (b :: rest) (j + 1) := by
            rw [rowOffset_cons_succ]
            ring
          constructor
          · rw [← hxeq]
            exact hrec.1
          · exact hrec.2

/-- C9: arrangeRow repositions the books on the host left to right in their
existing placement order — the i-th book is centered after the cumulative
spine widths of the preceding books plus one fixed 0.005 gap per preceding
book, starting from the host left edge plus its 0.05 margin — sets every
book upright, and gives all books the host base height plus 0.02 and the
host center z. -/
theorem arrangeRow_spec (furniture : List FurnitureItem) (target : FurnitureItem)
    (i : Nat) (b : FurnitureItem)
    (hnodup : (furniture.map FurnitureItem.id).Nodup)
    (hb : (getBooksOnFurniture furniture target)[i]? = some b) :
    posOf (arrangeRow furniture target) b.id =
        some ⟨target.position.x - target.dimensions.width / 2 + 1 / 20 +
            rowOffset (getBooksOnFurniture furniture target) i + spineWidth b / 2,
          target.position.y + 1 / 50, target.position.z⟩ ∧
      orientOf (arrangeRow furniture target) b.id =
        some (some BookOrientation.upright) := by
  rcases List.getElem?_eq_some.mp hb with ⟨hi, hgetb⟩
  have hguard : ¬(getBooksOnFurniture furniture target).length < 1 := by omega
  have hsub : (getBooksOnFurniture furniture target).Sublist furniture :=
    List.filter_sublist furniture
  have hnodupB : ((getBooksOnFurniture furniture target).map FurnitureItem.id).Nodup :=
    List.Nodup.sublist (hsub.map FurnitureItem.id) hnodup
  have hsome : ∀ bk ∈ getBooksOnFurniture furniture target,
      ((furniture.find? (byId bk.id))).isSome = true := by
    intro bk hbk
    have hmem : bk ∈ furniture := List.mem_of_mem_filter hbk
    rw [List.find?_isSome]
    exact ⟨bk, hmem, by simp [byId]⟩
  have h := rowPlace_find (target.position.y + 1 / 50) target.position.z
    (getBooksOnFurniture furniture target)
    (target.position.x - target.dimensions.width / 2 + 1 / 20) furniture i hi
    hnodupB hsome
  have harr : arrangeRow furniture target =
      rowPlace (target.position.y + 1 / 50) target.position.z
        (target.position.x - target.dimensions.width / 2 + 1 / 20) furniture
        (getBooksOnFurniture furniture target) := by
    unfold arrangeRow
    simp [hguard]
  have hgetb2 : (getBooksOnFurniture furniture target).get ⟨i, hi⟩ = b := hgetb
  rw [harr, ← hgetb2]
  exact h

def wShelf : FurnitureItem :=
  { id := "s", type := "bookshelf", position := ⟨0, 0, 0⟩, absCos := 1, absSin := 0,
    dimensions := ⟨4 / 5, 6 / 5, 3 / 10⟩, color := "oak", orientation := none,
    spineColor := none, sizeVariant := none }

def wBookB : FurnitureItem :=
  { id := "k2", type := "manga", position := ⟨1 / 5, 0, 0⟩, absCos := 1, absSin := 0,
    dimensions := ⟨11 / 100, 17 / 100, 1 / 50⟩, color := "white",
    orientation := some BookOrientation.flat, spineColor := some "blue",
    sizeVariant := some (9 / 10) }

def wFurnRow : List FurnitureItem :=
  [wShelf, wBook, wBookB]

theorem arrangeRow_spec_witness :
    (wFurnRow.map FurnitureItem.id).Nodup ∧
      (getBooksOnFurniture wFurnRow wShelf)[1]? = some wBookB ∧
        posOf (arrangeRow wFurnRow wShelf) wBookB.id =
            some ⟨wShelf.position.x - wShelf.dimensions.width / 2 + 1 / 20 +
                rowOffset (getBooksOnFurniture wFurnRow wShelf) 1 + spineWidth wBookB / 2,
              wShelf.position.y + 1 / 50, wShelf.position.z⟩ ∧
          orientOf (arrangeRow wFurnRow wShelf) wBookB.id =
            some (some BookOrientation.upright) :=
  ⟨by with_unfolding_all decide, by with_unfolding_all decide,
    arrangeRow_spec wFurnRow wShelf 1 wBookB (by with_unfolding_all decide)
      (by with_unfolding_all decide)⟩
